import Mathlib

/-!
Verification of the aiolifx device-session and discovery layer
(src/aiolifxc/aiolifx.py), as a shallow embedding in Lean 4.

The wire codec (message packing/unpacking) is external to the repository;
messages are modelled as already-decoded records carrying the fields the
core consumes: kind, target address, source id, sequence number and the
ack/response flags, per the codec contract in the specification.
-/

set_option maxRecDepth 4000

namespace Aiolifx

/-- Decoded protocol message, per the wire-codec contract: kind (the
concrete Python class of the message, modelled as a numeric kind id),
target address, source id, sequence number, and the two request flags. -/
structure LifxMsg where
  typeId : Nat
  targetAddr : String
  sourceId : Nat
  seqNum : Nat
  ackRequested : Bool
  responseRequested : Bool
  deriving DecidableEq

/-- Modelled from the spec: the broadcast placeholder hardware address
constant imported from the wire-codec module (aiolifxc/message.py, not
under src/). Used only as an opaque token. -/
def BROADCAST_MAC : String := "00:00:00:00:00:00"

/-- One outstanding-request table entry: the Python list
[response_type, event, response] stored in Light._message, keyed by
sequence number.  event is None before the first attempt installs an
aio.Event, then some false (not set) / some true (set). -/
structure Entry where
  responseType : Nat
  event : Option Bool
  slot : Option LifxMsg
  deriving DecidableEq

/-- Lookup in the outstanding-request table (Python dict indexing). -/
def lookupEntry : List (Nat × Entry) → Nat → Option Entry
  | [], _ => none
  | (m, e) :: t, n => if m = n then some e else lookupEntry t n

/-- Store into the outstanding-request table (Python dict assignment):
replaces the entry at the key in place, or appends a new binding. -/
def putEntry : List (Nat × Entry) → Nat → Entry → List (Nat × Entry)
  | [], n, e => [(n, e)]
  | (m, e') :: t, n, e =>
    if m = n then (n, e) :: t else (m, e') :: putEntry t n e

/-- Delete from the outstanding-request table (Python del). -/
def removeEntry (t : List (Nat × Entry)) (n : Nat) : List (Nat × Entry) :=
  t.filter (fun p => p.1 ≠ n)

/-- Per-device session state: the mutable fields of the Python Light
object that the session/request engine reads and writes.  transport and
task hold opaque handle ids (none = closed / cancelled); nextTaskId is a
fresh-name supply standing for the runtime allocating new endpoint tasks;
refreshes counts the background metadata refreshes scheduled by
Light._register. -/
structure Session where
  macAddr : String
  ipAddr : String
  port : Nat
  transport : Option Nat
  task : Option Nat
  nextTaskId : Nat
  seq : Nat
  message : List (Nat × Entry)
  sourceId : Nat
  label : Option (List Char)
  refreshes : Nat
  deriving DecidableEq

/-- Light._seq_next: advance the cyclic sequence counter and return it. -/
def Session.seqNext (s : Session) : Session × Nat :=
  let q := (s.seq + 1) % 128
  ({ s with seq := q }, q)

/-- Light.cleanup: close the transport and cancel the endpoint task.
Note it does not touch the outstanding-request table. -/
def Session.cleanup (s : Session) : Session :=
  { s with transport := none, task := none }

/-- Light.datagram_received on an already-decoded message: look up the
outstanding entry by sequence number; if the message kind equals the
expected response kind and the source id equals the session's source id,
store the reply in the result slot and set the waiter's event; otherwise
leave all state untouched. -/
def datagramReceived (s : Session) (r : LifxMsg) : Session :=
  match lookupEntry s.message r.seqNum with
  | none => s
  | some e =>
    if r.typeId = e.responseType then
      if r.sourceId = s.sourceId then
        { s with
          message := putEntry s.message r.seqNum
            { e with slot := some r, event := e.event.map (fun _ => true) } }
      else s
    else s

/-- Light.renew: if the (ip, port) pair differs from the current one,
run cleanup and store the new address; then, if there is no endpoint
task, create one (the datagram endpoint for the current address); always
schedule a background metadata refresh (Light._register). -/
def Session.renew (s : Session) (_family : Nat) (ip : String) (p : Nat) :
    Session :=
  let s1 := if s.ipAddr ≠ ip ∨ s.port ≠ p then
      { s.cleanup with ipAddr := ip, port := p }
    else s
  let s2 := if s1.task = none then
      { s1 with task := some s1.nextTaskId, nextTaskId := s1.nextTaskId + 1 }
    else s1
  { s2 with refreshes := s2.refreshes + 1 }

theorem lookupEntry_putEntry_self (t : List (Nat × Entry)) (n : Nat)
    (e : Entry) : lookupEntry (putEntry t n e) n = some e := by
  induction t with
  | nil => simp [putEntry, lookupEntry]
  | cons hd tl ih =>
    by_cases h : hd.1 = n
    · simp [putEntry, h, lookupEntry]
    · simpa [putEntry, h, lookupEntry] using ih

theorem lookupEntry_putEntry_ne (t : List (Nat × Entry)) (n m : Nat)
    (e : Entry) (h : m ≠ n) :
    lookupEntry (putEntry t n e) m = lookupEntry t m := by
  induction t with
  | nil => simp [putEntry, lookupEntry, Ne.symm h]
  | cons hd tl ih =>
    by_cases h1 : hd.1 = n
    · simp [putEntry, h1, lookupEntry, Ne.symm h]
    · by_cases h2 : hd.1 = m <;>
        simp [putEntry, h1, lookupEntry, h2, ih, h, Ne.symm h]

theorem lookupEntry_removeEntry_self (t : List (Nat × Entry)) (n : Nat) :
    lookupEntry (removeEntry t n) n = none := by
  induction t with
  | nil => simp [removeEntry, lookupEntry]
  | cons hd tl ih =>
    by_cases h : hd.1 = n
    · simpa [removeEntry, h, lookupEntry] using ih
    · simpa [removeEntry, h, lookupEntry] using ih

/-- datagram_received only writes the message table. -/
theorem datagramReceived_fields (s : Session) (r : LifxMsg) :
    (datagramReceived s r).transport = s.transport ∧
    (datagramReceived s r).task = s.task ∧
    (datagramReceived s r).sourceId = s.sourceId ∧
    (datagramReceived s r).ipAddr = s.ipAddr := by
  unfold datagramReceived
  cases lookupEntry s.message r.seqNum with
  | none => exact ⟨rfl, rfl, rfl, rfl⟩
  | some e =>
    by_cases h1 : r.typeId = e.responseType
    · by_cases h2 : r.sourceId = s.sourceId <;> simp [h1, h2]
    · simp [h1]

/-- datagram_received leaves entries at other sequence numbers alone. -/
theorem datagramReceived_lookup_other (s : Session) (r : LifxMsg) (n : Nat)
    (h : n ≠ r.seqNum) :
    lookupEntry (datagramReceived s r).message n = lookupEntry s.message n := by
  unfold datagramReceived
  cases lookupEntry s.message r.seqNum with
  | none => rfl
  | some e =>
    by_cases h1 : r.typeId = e.responseType
    · by_cases h2 : r.sourceId = s.sourceId
      · simp [h1, h2, lookupEntry_putEntry_ne _ _ _ _ h]
      · simp [h1, h2]
    · simp [h1]

/-- C1: for an inbound datagram, the waiting caller (an entry whose event
is installed but not set) is released — its entry gets the reply in the
result slot and its event set — iff the reply's sequence number has an
outstanding entry, the reply's kind equals that entry's expected response
kind, and the reply's source id equals the session's source id; whenever
any of the three does not match, the session state is left completely
unchanged (packet discarded, slot unset, caller still pending). -/
theorem c1_datagram_release_iff (s : Session) (r : LifxMsg) :
    (∀ e, lookupEntry s.message r.seqNum = some e → e.event = some false →
      (lookupEntry (datagramReceived s r).message r.seqNum =
          some { e with slot := some r, event := some true } ↔
        r.typeId = e.responseType ∧ r.sourceId = s.sourceId)) ∧
    ((∀ e, lookupEntry s.message r.seqNum = some e →
        r.typeId ≠ e.responseType ∨ r.sourceId ≠ s.sourceId) →
      datagramReceived s r = s) := by
  constructor
  · intro e he hev
    constructor
    · intro hlk
      by_cases h1 : r.typeId = e.responseType
      · by_cases h2 : r.sourceId = s.sourceId
        · exact ⟨h1, h2⟩
        · exfalso
          unfold datagramReceived at hlk
          rw [he] at hlk
          simp only [h1, if_true, h2, if_false, if_neg h2] at hlk
          rw [he] at hlk
          have := congrArg (fun o => Option.map Entry.event o) hlk
          simp [hev] at this
      · exfalso
        unfold datagramReceived at hlk
        rw [he] at hlk
        simp only [if_neg h1] at hlk
        rw [he] at hlk
        have := congrArg (fun o => Option.map Entry.event o) hlk
        simp [hev] at this
    · rintro ⟨h1, h2⟩
      have hmap : e.event.map (fun _ => true) = some true := by rw [hev]; rfl
      unfold datagramReceived
      rw [he]
      simp only [h1, h2, if_true]
      rw [lookupEntry_putEntry_self, hmap]
  · intro hmm
    unfold datagramReceived
    cases hq : lookupEntry s.message r.seqNum with
    | none => rfl
    | some e =>
      rcases hmm e hq with h | h
      · simp [h]
      · by_cases h1 : r.typeId = e.responseType <;> simp [h1, h]

/-- Sample session for the C1 witness: one outstanding entry at sequence
number 5 expecting kind 7, caller pending. -/
def c1Msg : LifxMsg :=
  { typeId := 7, targetAddr := "d0:73:d5:00:00:01", sourceId := 42,
    seqNum := 5, ackRequested := false, responseRequested := true }

def c1Session : Session :=
  { macAddr := "d0:73:d5:00:00:01", ipAddr := "192.168.0.2", port := 56700,
    transport := some 0, task := some 1, nextTaskId := 2, seq := 5,
    message := [(5, { responseType := 7, event := some false, slot := none })],
    sourceId := 42, label := none, refreshes := 0 }

/-- Witness for C1: a fully matching reply releases the pending caller. -/
theorem c1_datagram_release_iff_witness :
    lookupEntry (datagramReceived c1Session c1Msg).message c1Msg.seqNum =
      some { responseType := 7, event := some true, slot := some c1Msg } :=
  ((c1_datagram_release_iff c1Session c1Msg).1
    { responseType := 7, event := some false, slot := none }
    (by decide) (by decide)).mpr ⟨by decide, by decide⟩

/-- Session used for the C5 counterexample: it has an outstanding request
(sequence number 4) at the moment the address changes. -/
def c5Entry : Entry := { responseType := 7, event := some false, slot := none }

def c5Session : Session :=
  { macAddr := "d0:73:d5:00:00:02", ipAddr := "192.168.0.5", port := 56700,
    transport := some 0, task := some 1, nextTaskId := 2, seq := 4,
    message := [(4, c5Entry)], sourceId := 99, label := none, refreshes := 0 }

/-- Counterexample for C5: renewing to a different IP leaves the
outstanding-request table exactly as it was — the claimed teardown of the
outstanding-request state before rebinding does not happen. -/
theorem c5_renew_counterexample :
    (c5Session.renew 2 "192.168.0.9" 56700).message = [(4, c5Entry)] ∧
    ([(4, c5Entry)] : List (Nat × Entry)) ≠ [] := by
  constructor
  · decide
  · decide

/-- C5 (amended): renew with a different (ip, port) closes the existing
transport and cancels the endpoint task before rebinding, creates a fresh
endpoint task for the new address and schedules a metadata refresh; the
outstanding-request table is left untouched (outstanding callers are not
failed by renew — they rely on their own bounded retry/timeout loop). -/
theorem c5_renew_new_address (s : Session) (family : Nat) (ip : String)
    (p : Nat) (h : s.ipAddr ≠ ip ∨ s.port ≠ p) :
    (s.renew family ip p).transport = none ∧
    (s.renew family ip p).task = some s.nextTaskId ∧
    (s.renew family ip p).nextTaskId = s.nextTaskId + 1 ∧
    (s.renew family ip p).message = s.message ∧
    (s.renew family ip p).ipAddr = ip ∧
    (s.renew family ip p).port = p ∧
    (s.renew family ip p).refreshes = s.refreshes + 1 := by
  unfold Session.renew
  rw [if_pos h]
  simp [Session.cleanup]

/-- Witness for the amended C5 at a concrete session. -/
theorem c5_renew_new_address_witness :
    (c5Session.renew 2 "10.0.0.7" 56700).transport = none ∧
    (c5Session.renew 2 "10.0.0.7" 56700).task = some 2 ∧
    (c5Session.renew 2 "10.0.0.7" 56700).nextTaskId = 3 ∧
    (c5Session.renew 2 "10.0.0.7" 56700).message = c5Session.message ∧
    (c5Session.renew 2 "10.0.0.7" 56700).ipAddr = "10.0.0.7" ∧
    (c5Session.renew 2 "10.0.0.7" 56700).port = 56700 ∧
    (c5Session.renew 2 "10.0.0.7" 56700).refreshes = 1 :=
  c5_renew_new_address c5Session 2 "10.0.0.7" 56700 (by decide)

/-- C6: renewing with the identical (family, ip, port) while the session
has an established transport and endpoint task changes nothing except
scheduling one background metadata refresh. -/
theorem c6_renew_same_address (s : Session) (family tr tk : Nat)
    (_htr : s.transport = some tr) (htk : s.task = some tk) :
    s.renew family s.ipAddr s.port = { s with refreshes := s.refreshes + 1 } := by
  unfold Session.renew
  rw [if_neg (by simp)]
  simp [htk]

/-- Session used for the C6 witness. -/
def c6Session : Session :=
  { macAddr := "d0:73:d5:00:00:03", ipAddr := "192.168.0.3", port := 56700,
    transport := some 5, task := some 6, nextTaskId := 7, seq := 0,
    message := [], sourceId := 7, label := none, refreshes := 0 }

/-- Witness for C6 at a concrete session. -/
theorem c6_renew_same_address_witness :
    c6Session.renew 2 c6Session.ipAddr c6Session.port =
      { c6Session with refreshes := 1 } :=
  c6_renew_same_address c6Session 2 5 6 rfl rfl

/-- Outcome of Light._try_sending: success carries the value of the
result slot that the function returns; offline stands for a raised
LightOffline; runtimeError for the "Oops" RuntimeError guard. -/
inductive TryOut where
  | success (result : Option LifxMsg)
  | offline
  | runtimeError
  deriving DecidableEq

/-- Result of running Light._try_sending: the session state afterwards,
the list of transmitted datagrams in order, the number of full
timeout_secs waits that elapsed, and the outcome. -/
structure TryResult where
  state : Session
  sent : List LifxMsg
  timeouts : Nat
  out : TryOut
  deriving DecidableEq

/-- Whether the aio.Event for sequence number n is currently set. -/
def eventIsSet (s : Session) (n : Nat) : Bool :=
  match lookupEntry s.message n with
  | some e => e.event == some true
  | none => false

/-- Datagram processing during one attempt's wait window: arrives i is
the (at most one, in this model) datagram handed to datagram_received
while attempt i awaits its event. -/
def deliver (s : Session) (o : Option LifxMsg) : Session :=
  match o with
  | some r => datagramReceived s r
  | none => s

/-- The code after the while loop: read the result slot, delete the
outstanding entry, return the result. -/
def finishTry (msg : LifxMsg) (s : Session) (sent : List LifxMsg)
    (touts : Nat) : TryResult :=
  { state := { s with message := removeEntry s.message msg.seqNum },
    sent := sent, timeouts := touts,
    out := .success ((lookupEntry s.message msg.seqNum).bind Entry.slot) }

/-- One attempt: install a fresh unset event in the entry, transmit the
packed message (recorded by the caller), then let the wait window's
datagram, if any, be processed. -/
def tryStep (msg : LifxMsg) (arrives : Nat → Option LifxMsg)
    (attempts : Nat) (s : Session) (e : Entry) : Session :=
  deliver
    ({ s with
        message := putEntry s.message msg.seqNum
          ({ e with event := some false }) })
    (arrives (attempts + 1))

/-- The terminal-failure path: delete the outstanding entry, run
Light.cleanup, raise LightOffline. -/
def offlineResult (msg : LifxMsg) (s : Session) (sent : List LifxMsg)
    (touts : Nat) : TryResult :=
  { state := Session.cleanup
      { s with message := removeEntry s.message msg.seqNum },
    sent := sent, timeouts := touts, out := .offline }

/-- The while loop of Light._try_sending.  fuel = max_attempts minus the
attempts already made (the loop guard); attempts counts attempts made;
the attempt about to run is number attempts + 1. -/
def tryLoop (msg : LifxMsg) (maxA : Nat) (arrives : Nat → Option LifxMsg) :
    Nat → Nat → Session → List LifxMsg → Nat → TryResult
  | 0, _, s, sent, touts => finishTry msg s sent touts
  | fuel + 1, attempts, s, sent, touts =>
    match lookupEntry s.message msg.seqNum with
    | none => { state := s, sent := sent, timeouts := touts,
                out := .runtimeError }
    | some e =>
      if eventIsSet (tryStep msg arrives attempts s e) msg.seqNum then
        finishTry msg (tryStep msg arrives attempts s e) (sent ++ [msg]) touts
      else if maxA ≤ attempts + 1 then
        offlineResult msg (tryStep msg arrives attempts s e) (sent ++ [msg])
          (touts + 1)
      else
        tryLoop msg maxA arrives fuel (attempts + 1)
          (tryStep msg arrives attempts s e) (sent ++ [msg]) (touts + 1)

/-- Light._try_sending: register the outstanding entry
[response_type, None, None] under the message's sequence number, then run
the retry loop with max_attempts attempts. -/
def trySending (s : Session) (msg : LifxMsg) (responseType : Nat)
    (maxA : Nat) (arrives : Nat → Option LifxMsg) : TryResult :=
  tryLoop msg maxA arrives maxA 0
    ({ s with
        message := putEntry s.message msg.seqNum
          ({ responseType := responseType, event := none, slot := none }) })
    [] 0

/-- A reply that correlates with the given request: same sequence number,
the expected response kind, and the session's source id. -/
def matchesReply (msg : LifxMsg) (rt srcId : Nat) (r : LifxMsg) : Prop :=
  r.seqNum = msg.seqNum ∧ r.typeId = rt ∧ r.sourceId = srcId

theorem datagramReceived_mismatch (s : Session) (r : LifxMsg) (e : Entry)
    (he : lookupEntry s.message r.seqNum = some e)
    (h : r.typeId ≠ e.responseType ∨ r.sourceId ≠ s.sourceId) :
    datagramReceived s r = s := by
  unfold datagramReceived
  rw [he]
  rcases h with h | h
  · simp [h]
  · by_cases h1 : r.typeId = e.responseType <;> simp [h1, h]

theorem datagramReceived_accept (s : Session) (r : LifxMsg) (e : Entry)
    (he : lookupEntry s.message r.seqNum = some e)
    (h1 : r.typeId = e.responseType) (h2 : r.sourceId = s.sourceId) :
    (datagramReceived s r).message =
      putEntry s.message r.seqNum
        { e with slot := some r, event := e.event.map (fun _ => true) } := by
  unfold datagramReceived
  rw [he]
  simp [h1, h2]

/-- A delivery that does not correlate with the watched request leaves
its entry, and the session's identity fields, untouched. -/
theorem deliver_preserve (s : Session) (msg : LifxMsg) (e : Entry)
    (rt srcId : Nat) (o : Option LifxMsg)
    (he : lookupEntry s.message msg.seqNum = some e)
    (hrt : e.responseType = rt) (hsrc : s.sourceId = srcId)
    (hnm : ∀ r, o = some r → ¬ matchesReply msg rt srcId r) :
    lookupEntry (deliver s o).message msg.seqNum = some e ∧
    (deliver s o).transport = s.transport ∧
    (deliver s o).task = s.task ∧
    (deliver s o).sourceId = s.sourceId := by
  cases o with
  | none => exact ⟨he, rfl, rfl, rfl⟩
  | some r =>
    have hfields := datagramReceived_fields s r
    refine ⟨?_, hfields.1, hfields.2.1, hfields.2.2.1⟩
    by_cases hs : r.seqNum = msg.seqNum
    · have hn := hnm r rfl
      have hmm : r.typeId ≠ e.responseType ∨ r.sourceId ≠ s.sourceId := by
        by_contra hc
        push_neg at hc
        exact hn ⟨hs, hrt ▸ hc.1, hsrc ▸ hc.2⟩
      have := datagramReceived_mismatch s r e (hs ▸ he) hmm
      simpa [deliver, this] using he
    · simpa [deliver, datagramReceived_lookup_other s r _ (Ne.symm hs)] using he

theorem eventIsSet_of_lookup (s : Session) (n : Nat) (e : Entry)
    (he : lookupEntry s.message n = some e) :
    eventIsSet s n = (e.event == some true) := by
  unfold eventIsSet
  rw [he]

theorem tryLoop_succ_some (msg : LifxMsg) (maxA : Nat)
    (arrives : Nat → Option LifxMsg) (fuel attempts : Nat) (s : Session)
    (sent : List LifxMsg) (touts : Nat) (e : Entry)
    (he : lookupEntry s.message msg.seqNum = some e) :
    tryLoop msg maxA arrives (fuel + 1) attempts s sent touts =
      if eventIsSet (tryStep msg arrives attempts s e) msg.seqNum then
        finishTry msg (tryStep msg arrives attempts s e) (sent ++ [msg]) touts
      else if maxA ≤ attempts + 1 then
        offlineResult msg (tryStep msg arrives attempts s e) (sent ++ [msg])
          (touts + 1)
      else
        tryLoop msg maxA arrives fuel (attempts + 1)
          (tryStep msg arrives attempts s e) (sent ++ [msg]) (touts + 1) := by
  simp only [tryLoop]
  rw [he]

/-- One attempt during which no correlating reply is delivered leaves the
outstanding entry armed-but-unset and preserves the session's identity
fields. -/
theorem tryStep_preserve (msg : LifxMsg) (arrives : Nat → Option LifxMsg)
    (attempts : Nat) (s : Session) (e : Entry) (rt srcId : Nat)
    (hrt : e.responseType = rt) (hsrc : s.sourceId = srcId)
    (hnm : ∀ r, arrives (attempts + 1) = some r →
      ¬ matchesReply msg rt srcId r) :
    lookupEntry (tryStep msg arrives attempts s e).message msg.seqNum =
      some ({ e with event := some false }) ∧
    (tryStep msg arrives attempts s e).transport = s.transport ∧
    (tryStep msg arrives attempts s e).task = s.task ∧
    (tryStep msg arrives attempts s e).sourceId = s.sourceId := by
  unfold tryStep
  exact deliver_preserve _ msg _ rt srcId _
    (lookupEntry_putEntry_self _ _ _) hrt hsrc hnm

/-- One attempt during which a correlating reply is delivered stores the
reply in the slot and sets the event. -/
theorem tryStep_accept (msg : LifxMsg) (arrives : Nat → Option LifxMsg)
    (attempts : Nat) (s : Session) (e : Entry) (rt srcId : Nat) (r : LifxMsg)
    (hrt : e.responseType = rt) (hsrc : s.sourceId = srcId)
    (har : arrives (attempts + 1) = some r)
    (hm : matchesReply msg rt srcId r) :
    lookupEntry (tryStep msg arrives attempts s e).message msg.seqNum =
      some ({ e with event := some true, slot := some r }) ∧
    (tryStep msg arrives attempts s e).transport = s.transport ∧
    (tryStep msg arrives attempts s e).task = s.task ∧
    (tryStep msg arrives attempts s e).sourceId = s.sourceId := by
  obtain ⟨hseq, hty, hsr⟩ := hm
  unfold tryStep
  rw [har]
  simp only [deliver]
  have he1 : lookupEntry
      (putEntry s.message msg.seqNum ({ e with event := some false }))
      r.seqNum = some ({ e with event := some false }) := by
    rw [hseq]
    exact lookupEntry_putEntry_self _ _ _
  have hacc := datagramReceived_accept
    ({ s with
        message := putEntry s.message msg.seqNum
          ({ e with event := some false }) })
    r ({ e with event := some false }) he1
    (by exact hty.trans hrt.symm) (by exact hsr.trans hsrc.symm)
  have hfields := datagramReceived_fields
    ({ s with
        message := putEntry s.message msg.seqNum
          ({ e with event := some false }) }) r
  refine ⟨?_, hfields.1, hfields.2.1, ?_⟩
  · rw [hacc, ← hseq]
    exact lookupEntry_putEntry_self _ _ _
  · exact hfields.2.2.1

/-- If no delivery during the loop correlates with the request, every
remaining attempt retransmits the identical message and waits out the
full timeout; after the last attempt the entry is removed, the session
torn down and LightOffline raised. -/
theorem tryLoop_offline (msg : LifxMsg) (rt srcId maxA : Nat)
    (arrives : Nat → Option LifxMsg)
    (hnm : ∀ i r, arrives i = some r → ¬ matchesReply msg rt srcId r) :
    ∀ fuel attempts s sent touts e, fuel + attempts = maxA → 1 ≤ fuel →
      lookupEntry s.message msg.seqNum = some e →
      e.responseType = rt → s.sourceId = srcId →
      (tryLoop msg maxA arrives fuel attempts s sent touts).out =
        TryOut.offline ∧
      (tryLoop msg maxA arrives fuel attempts s sent touts).sent =
        sent ++ List.replicate fuel msg ∧
      (tryLoop msg maxA arrives fuel attempts s sent touts).timeouts =
        touts + fuel ∧
      (tryLoop msg maxA arrives fuel attempts s sent touts).state.transport =
        none ∧
      (tryLoop msg maxA arrives fuel attempts s sent touts).state.task =
        none ∧
      lookupEntry
        (tryLoop msg maxA arrives fuel attempts s sent touts).state.message
        msg.seqNum = none := by
  intro fuel
  induction fuel with
  | zero => intro attempts s sent touts e _ h2 _ _ _; omega
  | succ f ih =>
    intro attempts s sent touts e hsum _ he hrt hsrc
    have hps := tryStep_preserve msg arrives attempts s e rt srcId hrt hsrc
      (fun r hr => hnm (attempts + 1) r hr)
    have hevf : eventIsSet (tryStep msg arrives attempts s e) msg.seqNum
        = false := by
      rw [eventIsSet_of_lookup _ _ _ hps.1]
      rfl
    rw [tryLoop_succ_some msg maxA arrives f attempts s sent touts e he, hevf]
    rw [if_neg (by simp)]
    rcases Nat.eq_zero_or_pos f with hf | hf
    · subst hf
      rw [if_pos (by omega)]
      unfold offlineResult Session.cleanup
      refine ⟨rfl, by simp, rfl, rfl, rfl, ?_⟩
      exact lookupEntry_removeEntry_self _ _
    · rw [if_neg (by omega)]
      have hrec := ih (attempts + 1) (tryStep msg arrives attempts s e)
        (sent ++ [msg]) (touts + 1) ({ e with event := some false })
        (by omega) (by omega) hps.1 hrt
        (by rw [hps.2.2.2]; exact hsrc)
      obtain ⟨o1, o2, o3, o4, o5, o6⟩ := hrec
      refine ⟨o1, ?_, ?_, o4, o5, o6⟩
      · rw [o2]
        simp [List.replicate_succ, List.append_assoc]
      · rw [o3]
        omega

/-- If the first correlating reply is delivered during attempt k, the
loop stops there: k transmissions, k - 1 full timeouts, the reply is
returned and the session is not torn down. -/
theorem tryLoop_success (msg : LifxMsg) (rt srcId maxA : Nat)
    (arrives : Nat → Option LifxMsg) (r : LifxMsg) (k : Nat)
    (hk : arrives k = some r) (hm : matchesReply msg rt srcId r)
    (hbef : ∀ j r', j < k → arrives j = some r' →
      ¬ matchesReply msg rt srcId r') :
    ∀ fuel attempts s sent touts e, fuel + attempts = maxA →
      attempts < k → k ≤ maxA →
      lookupEntry s.message msg.seqNum = some e →
      e.responseType = rt → s.sourceId = srcId →
      (tryLoop msg maxA arrives fuel attempts s sent touts).out =
        TryOut.success (some r) ∧
      (tryLoop msg maxA arrives fuel attempts s sent touts).sent =
        sent ++ List.replicate (k - attempts) msg ∧
      (tryLoop msg maxA arrives fuel attempts s sent touts).timeouts =
        touts + (k - attempts - 1) ∧
      (tryLoop msg maxA arrives fuel attempts s sent touts).state.transport =
        s.transport ∧
      (tryLoop msg maxA arrives fuel attempts s sent touts).state.task =
        s.task ∧
      lookupEntry
        (tryLoop msg maxA arrives fuel attempts s sent touts).state.message
        msg.seqNum = none := by
  intro fuel
  induction fuel with
  | zero => intro attempts s sent touts e h1 h2 h3 _ _ _; omega
  | succ f ih =>
    intro attempts s sent touts e hsum hak hkA he hrt hsrc
    by_cases hka : k = attempts + 1
    · have har : arrives (attempts + 1) = some r := by rw [← hka]; exact hk
      have hacc := tryStep_accept msg arrives attempts s e rt srcId r
        hrt hsrc har hm
      have hevt : eventIsSet (tryStep msg arrives attempts s e) msg.seqNum
          = true := by
        rw [eventIsSet_of_lookup _ _ _ hacc.1]
        rfl
      rw [tryLoop_succ_some msg maxA arrives f attempts s sent touts e he,
        hevt, if_pos rfl]
      unfold finishTry
      refine ⟨?_, ?_, by show touts = touts + (k - attempts - 1); omega,
        hacc.2.1, hacc.2.2.1, ?_⟩
      · show TryOut.success _ = TryOut.success (some r)
        rw [hacc.1]
        rfl
      · have hone : k - attempts = 1 := by omega
        rw [hone]
        simp
      · exact lookupEntry_removeEntry_self _ _
    · have hlt : attempts + 1 < k := by omega
      have hps := tryStep_preserve msg arrives attempts s e rt srcId hrt hsrc
        (fun r' hr' => hbef (attempts + 1) r' hlt hr')
      have hevf : eventIsSet (tryStep msg arrives attempts s e) msg.seqNum
          = false := by
        rw [eventIsSet_of_lookup _ _ _ hps.1]
        rfl
      rw [tryLoop_succ_some msg maxA arrives f attempts s sent touts e he,
        hevf]
      rw [if_neg (by simp)]
      rw [if_neg (by omega)]
      have hrec := ih (attempts + 1) (tryStep msg arrives attempts s e)
        (sent ++ [msg]) (touts + 1) ({ e with event := some false })
        (by omega) hlt hkA hps.1 hrt
        (by rw [hps.2.2.2]; exact hsrc)
      obtain ⟨o1, o2, o3, o4, o5, o6⟩ := hrec
      refine ⟨o1, ?_, ?_, ?_, ?_, o6⟩
      · rw [o2]
        have : k - attempts = (k - (attempts + 1)) + 1 := by omega
        rw [this]
        simp [List.replicate_succ, List.append_assoc]
      · rw [o3]
        omega
      · rw [o4]
        exact hps.2.1
      · rw [o5]
        exact hps.2.2.1

/-- C2: a send-with-ack / send-with-response call (Light._try_sending,
with at least one attempt configured).  If the transport never delivers a
correlating reply, the identical message is transmitted exactly
max_attempts times, each attempt waits out the full timeout_secs, and
after the last timeout the outstanding entry is removed, the transport is
closed, the endpoint task cancelled, and the call raises LightOffline.
If the first correlating reply arrives during attempt k, the call returns
that reply after exactly k transmissions and k - 1 full timeouts, with no
teardown. -/
theorem c2_try_sending_retry_protocol (s : Session) (msg : LifxMsg)
    (rt maxA : Nat) (arrives : Nat → Option LifxMsg) (hA : 1 ≤ maxA) :
    ((∀ i r, arrives i = some r → ¬ matchesReply msg rt s.sourceId r) →
      (trySending s msg rt maxA arrives).out = TryOut.offline ∧
      (trySending s msg rt maxA arrives).sent = List.replicate maxA msg ∧
      (trySending s msg rt maxA arrives).timeouts = maxA ∧
      (trySending s msg rt maxA arrives).state.transport = none ∧
      (trySending s msg rt maxA arrives).state.task = none ∧
      lookupEntry (trySending s msg rt maxA arrives).state.message
        msg.seqNum = none) ∧
    (∀ k r, 1 ≤ k → k ≤ maxA → arrives k = some r →
      matchesReply msg rt s.sourceId r →
      (∀ j r', j < k → arrives j = some r' →
        ¬ matchesReply msg rt s.sourceId r') →
      (trySending s msg rt maxA arrives).out = TryOut.success (some r) ∧
      (trySending s msg rt maxA arrives).sent = List.replicate k msg ∧
      (trySending s msg rt maxA arrives).timeouts = k - 1 ∧
      (trySending s msg rt maxA arrives).state.transport = s.transport ∧
      (trySending s msg rt maxA arrives).state.task = s.task ∧
      lookupEntry (trySending s msg rt maxA arrives).state.message
        msg.seqNum = none) := by
  constructor
  · intro hnm
    have h := tryLoop_offline msg rt s.sourceId maxA arrives hnm maxA 0
      ({ s with
          message := putEntry s.message msg.seqNum
            ({ responseType := rt, event := none, slot := none }) })
      [] 0 ({ responseType := rt, event := none, slot := none })
      (by omega) hA (lookupEntry_putEntry_self _ _ _) rfl rfl
    obtain ⟨o1, o2, o3, o4, o5, o6⟩ := h
    exact ⟨o1, by rw [trySending, o2]; simp, by rw [trySending, o3]; omega,
      o4, o5, o6⟩
  · intro k r hk1 hkA hk hm hbef
    have h := tryLoop_success msg rt s.sourceId maxA arrives r k hk hm hbef
      maxA 0
      ({ s with
          message := putEntry s.message msg.seqNum
            ({ responseType := rt, event := none, slot := none }) })
      [] 0 ({ responseType := rt, event := none, slot := none })
      (by omega) hk1 hkA (lookupEntry_putEntry_self _ _ _) rfl rfl
    obtain ⟨o1, o2, o3, o4, o5, o6⟩ := h
    exact ⟨o1, by rw [trySending, o2]; simp, by rw [trySending, o3]; omega,
      o4, o5, o6⟩

/-- Session and message used for the C2 witness. -/
def c2Msg : LifxMsg :=
  { typeId := 20, targetAddr := "d0:73:d5:00:00:04", sourceId := 11,
    seqNum := 9, ackRequested := true, responseRequested := false }

def c2Session : Session :=
  { macAddr := "d0:73:d5:00:00:04", ipAddr := "192.168.0.8", port := 56700,
    transport := some 0, task := some 1, nextTaskId := 2, seq := 9,
    message := [], sourceId := 11, label := none, refreshes := 0 }

/-- Witness for C2: with a transport that drops every reply and
max_attempts = 3, the call transmits 3 identical messages, waits out 3
timeouts, removes the entry, tears the session down and goes offline. -/
theorem c2_try_sending_retry_protocol_witness :
    (trySending c2Session c2Msg 45 3 (fun _ => none)).out = TryOut.offline ∧
    (trySending c2Session c2Msg 45 3 (fun _ => none)).sent =
      List.replicate 3 c2Msg ∧
    (trySending c2Session c2Msg 45 3 (fun _ => none)).timeouts = 3 ∧
    (trySending c2Session c2Msg 45 3 (fun _ => none)).state.transport =
      none ∧
    (trySending c2Session c2Msg 45 3 (fun _ => none)).state.task = none ∧
    lookupEntry (trySending c2Session c2Msg 45 3 (fun _ => none)).state.message
      c2Msg.seqNum = none :=
  (c2_try_sending_retry_protocol c2Session c2Msg 45 3 (fun _ => none)
    (by omega)).1 (fun i r hr => by simp at hr)

/-- State of one session's sequence allocation together with the set of
logically in-flight calls: callers inside Light._try_sending that were
assigned a sequence number by Light._seq_next and have neither returned
nor raised.  Each in-flight call is recorded as
(allocation index, assigned sequence number), the allocation index being
the number of allocations made before it on this session. -/
structure SeqState where
  seq : Nat
  allocCount : Nat
  inflight : List (Nat × Nat)
  deriving DecidableEq

/-- Events affecting sequence allocation: start is a _req_with_ack or
_req_with_resp call running Light._seq_next and registering its entry;
complete ends the in-flight call with the given allocation index (normal
return or terminal failure). -/
inductive SeqOp where
  | start
  | complete (allocIdx : Nat)
  deriving DecidableEq

def seqStep (s : SeqState) : SeqOp → SeqState
  | .start =>
    { seq := (s.seq + 1) % 128,
      allocCount := s.allocCount + 1,
      inflight := s.inflight ++ [(s.allocCount, (s.seq + 1) % 128)] }
  | .complete i =>
    { s with inflight := s.inflight.filter (fun p => p.1 != i) }

def initSeqState : SeqState := { seq := 0, allocCount := 0, inflight := [] }

def seqRun (ops : List SeqOp) : SeqState := ops.foldl seqStep initSeqState

/-- Invariant of sequence allocation: the counter mirrors the allocation
count mod 128, every in-flight call holds the sequence number computed
from its allocation index, and in-flight allocation indices are strictly
increasing. -/
def SeqInv (s : SeqState) : Prop :=
  s.seq = s.allocCount % 128 ∧
  (∀ p ∈ s.inflight, p.2 = (p.1 + 1) % 128 ∧ p.1 < s.allocCount) ∧
  s.inflight.Pairwise (fun a b => a.1 < b.1)

theorem seqStep_inv (s : SeqState) (op : SeqOp) (h : SeqInv s) :
    SeqInv (seqStep s op) := by
  obtain ⟨h1, h2, h3⟩ := h
  cases op with
  | start =>
    refine ⟨by show (s.seq + 1) % 128 = (s.allocCount + 1) % 128; omega,
      ?_, ?_⟩
    · show ∀ p ∈ s.inflight ++ [(s.allocCount, (s.seq + 1) % 128)],
        p.2 = (p.1 + 1) % 128 ∧ p.1 < s.allocCount + 1
      intro p hp
      rcases List.mem_append.mp hp with hp | hp
      · obtain ⟨ha, hb⟩ := h2 p hp
        exact ⟨ha, by omega⟩
      · simp only [List.mem_singleton] at hp
        subst hp
        exact ⟨by show (s.seq + 1) % 128 = (s.allocCount + 1) % 128; omega,
          by omega⟩
    · show (s.inflight ++ [(s.allocCount, (s.seq + 1) % 128)]).Pairwise
        (fun a b => a.1 < b.1)
      apply List.pairwise_append.mpr
      refine ⟨h3, List.pairwise_singleton _ _, ?_⟩
      intro a ha b hb
      simp only [List.mem_singleton] at hb
      subst hb
      exact (h2 a ha).2
  | complete i =>
    refine ⟨h1, ?_, ?_⟩
    · show ∀ p ∈ s.inflight.filter (fun p => p.1 != i),
        p.2 = (p.1 + 1) % 128 ∧ p.1 < s.allocCount
      intro p hp
      exact h2 p (List.mem_of_mem_filter hp)
    · exact List.Pairwise.sublist (List.filter_sublist _) h3

theorem seqRun_inv (ops : List SeqOp) : SeqInv (seqRun ops) := by
  have hinit : SeqInv initSeqState := ⟨by decide, by simp [initSeqState],
    by simp [initSeqState]⟩
  unfold seqRun
  generalize initSeqState = s0 at hinit ⊢
  induction ops generalizing s0 with
  | nil => exact hinit
  | cons op rest ih => exact ih _ (seqStep_inv s0 op hinit)

/-- Counterexample for C3: a reachable state in which two outstanding
requests hold the same sequence number simultaneously — 129 request
starts with none completing (for instance 129 concurrent getter calls on
one session); the 1st and the 129th in-flight call both hold sequence
number 1, because the 0-127 counter wrapped. -/
theorem c3_seq_counterexample :
    ¬ ((seqRun (List.replicate 129 SeqOp.start)).inflight.map
        Prod.snd).Nodup := by
  decide

/-- C3 (amended): sequence numbers are allocated cyclically in [0, 127]
(each in-flight call at allocation index i holds (i + 1) mod 128), and no
two outstanding requests share a sequence number provided every
outstanding request started within the last 128 allocations; once 128 or
more new requests start while one is still in flight, the wrapped counter
reuses its live sequence number (the new registration overwrites the old
table entry, the table itself being keyed by sequence number). -/
theorem c3_seq_window_nodup (ops : List SeqOp)
    (hwin : ∀ p ∈ (seqRun ops).inflight,
      (seqRun ops).allocCount ≤ p.1 + 128) :
    ((seqRun ops).inflight.map Prod.snd).Nodup ∧
    ∀ p ∈ (seqRun ops).inflight, p.2 = (p.1 + 1) % 128 ∧ p.2 < 128 := by
  obtain ⟨h1, h2, h3⟩ := seqRun_inv ops
  constructor
  · have hpw : (seqRun ops).inflight.Pairwise (fun a b => a.2 ≠ b.2) := by
      refine List.Pairwise.imp_of_mem ?_ h3
      intro a b ha hb hab
      obtain ⟨ha2, ha1⟩ := h2 a ha
      obtain ⟨hb2, hb1⟩ := h2 b hb
      have hwa := hwin a ha
      rw [ha2, hb2]
      intro hEq
      omega
    exact List.pairwise_map.mpr hpw
  · intro p hp
    obtain ⟨hp2, _⟩ := h2 p hp
    exact ⟨hp2, by omega⟩

/-- Witness for the amended C3: two concurrent starts hold distinct
sequence numbers. -/
theorem c3_seq_window_nodup_witness :
    ((seqRun (List.replicate 2 SeqOp.start)).inflight.map Prod.snd).Nodup :=
  (c3_seq_window_nodup (List.replicate 2 SeqOp.start) (by decide)).1

/-- An ASCII hex digit as accepted inside the digit string parsed by
Python int(x, 16). -/
def isHexDigit (c : Char) : Bool :=
  (Nat.ble 48 c.toNat && Nat.ble c.toNat 57) ||
  (Nat.ble 97 c.toNat && Nat.ble c.toNat 102) ||
  (Nat.ble 65 c.toNat && Nat.ble c.toNat 70)

def hexDigitVal (c : Char) : Nat :=
  if Nat.ble 48 c.toNat && Nat.ble c.toNat 57 then
    c.toNat - 48
  else if Nat.ble 97 c.toNat && Nat.ble c.toNat 102 then
    c.toNat - 97 + 10
  else if Nat.ble 65 c.toNat && Nat.ble c.toNat 70 then
    c.toNat - 65 + 10
  else 0

/-- Python int(x, 16), modelled on plain hex-digit strings: fails
(ValueError, modelled as none) on the empty string or on any character
that is not a hex digit. -/
def intOfHex (s : String) : Option Nat :=
  if !s.data.isEmpty && s.data.all isHexDigit then
    some (s.data.foldl (fun a c => a * 16 + hexDigitVal c) 0)
  else none

/-- The str.maketrans/translate call deleting space, dot, colon, dash. -/
def stripDelims (s : String) : String :=
  String.mk (s.data.filter (fun c => !([' ', '.', ':', '-'].contains c)))

/-- Lowercase hex digits of n, as in Python "{:x}".format(n). -/
def hexRepr (n : Nat) : List Char := Nat.toDigits 16 n

/-- Python "{:0Wx}".format(n): lowercase hex left-padded with zeros to
width w (longer when n needs more digits). -/
def hexPad (w n : Nat) : String :=
  String.mk (List.replicate (w - (hexRepr n).length) (Char.ofNat 48) ++
    hexRepr n)

/-- aiolifx._mac_to_ipv6_link_local: strip delimiters, parse the 48-bit
hardware-address value, split out the four fields with the
universal/local bit of the upper 16 bits inverted (XOR 0x0200), and
format prefix:HHHH:HHff:feHH:HHHH. -/
def macToIpv6LinkLocal (mac pfx : String) : Option String :=
  match intOfHex (stripDelims mac) with
  | none => none
  | some v =>
    some (pfx ++ ":" ++ hexPad 4 (((v >>> 32) &&& 0xffff) ^^^ 0x0200)
      ++ ":" ++ hexPad 2 ((v >>> 24) &&& 0xff)
      ++ "ff:fe" ++ hexPad 2 ((v >>> 16) &&& 0xff)
      ++ ":" ++ hexPad 4 (v &&& 0xffff))

/-- Counterexample for C4: for 01:23:45:67:89:ab with prefix fd00:1234
the first group after the prefix is 0323 (first octet 0x01 XOR 0x02 =
0x03), not 2145 as the claim pins it. -/
theorem c4_mac_counterexample :
    macToIpv6LinkLocal "01:23:45:67:89:ab" "fd00:1234" =
      some "fd00:1234:0323:45ff:fe67:89ab" ∧
    macToIpv6LinkLocal "01:23:45:67:89:ab" "fd00:1234" ≠
      some ("fd00:1234" ++ ":2145:45ff:fe67:89ab") := by
  constructor
  · decide
  · decide

/-- C4 (amended): for every hardware-address string whose
delimiter-stripped form parses as hex value v, the translation returns
prefix:HHHH:HHff:feHH:HHHH built from the upper 16 bits of the 48-bit
value with the universal/local bit (the 2 ^ 9 bit of that 16-bit group,
i.e. the 0x02 bit of the first octet, not of the second) XORed with 1,
then bits 24-31, then bits 16-23, then the lowest 16 bits; the pinned
example 01:23:45:67:89:ab / fd00:1234 gives fd00:1234:0323:45ff:fe67:89ab. -/
theorem c4_mac_to_ipv6 (mac pfx : String) (v : Nat)
    (h : intOfHex (stripDelims mac) = some v) :
    macToIpv6LinkLocal mac pfx =
      some (pfx ++ ":" ++ hexPad 4 ((v / 2 ^ 32 % 2 ^ 16) ^^^ 2 ^ 9)
        ++ ":" ++ hexPad 2 (v / 2 ^ 24 % 2 ^ 8)
        ++ "ff:fe" ++ hexPad 2 (v / 2 ^ 16 % 2 ^ 8)
        ++ ":" ++ hexPad 4 (v % 2 ^ 16)) := by
  have em16 : ∀ x : Nat, x &&& 65535 = x % 65536 := by
    intro x
    have hx := Nat.and_pow_two_sub_one_eq_mod x 16
    norm_num at hx
    exact hx
  have em8 : ∀ x : Nat, x &&& 255 = x % 256 := by
    intro x
    have hx := Nat.and_pow_two_sub_one_eq_mod x 8
    norm_num at hx
    exact hx
  unfold macToIpv6LinkLocal
  rw [h]
  simp only [Nat.shiftRight_eq_div_pow, em16, em8]
  norm_num

/-- Witness for the amended C4 at the pinned input. -/
theorem c4_mac_to_ipv6_witness :
    macToIpv6LinkLocal "01:23:45:67:89:ab" "fd00:1234" =
      some ("fd00:1234" ++ ":" ++
        hexPad 4 ((1250999896491 / 2 ^ 32 % 2 ^ 16) ^^^ 2 ^ 9)
        ++ ":" ++ hexPad 2 (1250999896491 / 2 ^ 24 % 2 ^ 8)
        ++ "ff:fe" ++ hexPad 2 (1250999896491 / 2 ^ 16 % 2 ^ 8)
        ++ ":" ++ hexPad 4 (1250999896491 % 2 ^ 16)) :=
  c4_mac_to_ipv6 "01:23:45:67:89:ab" "fd00:1234" 1250999896491 (by decide)

/-- Modelled from the spec: the numeric kind id of the GetService
service-announcement request from the wire-codec module (not under
src/); used as an opaque token. -/
def getServiceTypeId : Nat := 2

/-- The active discovery probe built in LifxDiscoveryProtocol._discover:
GetService to the broadcast placeholder address, response requested, no
ack, sequence number 0. -/
def discoveryProbe (srcId : Nat) : LifxMsg :=
  { typeId := getServiceTypeId, targetAddr := BROADCAST_MAC,
    sourceId := srcId, seqNum := 0, ackRequested := false,
    responseRequested := true }

/-- State of the discovery wake loop: the protocol's random source id,
the probe countdown (a Python int: it would go negative if step did not
divide interval), and the probes broadcast so far, in order. -/
structure DiscoveryState where
  sourceId : Nat
  countdown : Int
  sent : List LifxMsg
  deriving DecidableEq

/-- One wake of LifxDiscoveryProtocol._discover (transport present):
if the countdown is ≤ 0, reset it to discovery_interval and broadcast
one probe; otherwise decrement it by discovery_step.  (The liveness
sweep each wake touches only the registry, not this state.) -/
def discoverStep (interval step : Int) (s : DiscoveryState) :
    DiscoveryState :=
  if s.countdown ≤ 0 then
    { s with countdown := interval,
             sent := s.sent ++ [discoveryProbe s.sourceId] }
  else { s with countdown := s.countdown - step }

/-- n consecutive wakes. -/
def discoverIter (interval step : Int) : Nat → DiscoveryState → DiscoveryState
  | 0, s => s
  | n + 1, s => discoverIter interval step n (discoverStep interval step s)

/-- LifxDiscoveryProtocol.__init__: countdown starts at 0. -/
def initDiscovery (srcId : Nat) : DiscoveryState :=
  { sourceId := srcId, countdown := 0, sent := [] }

/-- Pure countdown dynamics: final countdown and number of probes over n
wakes from countdown c. -/
def discoverCount (interval step : Int) : Nat → Int → Int × Nat
  | 0, c => (c, 0)
  | n + 1, c =>
    if c ≤ 0 then
      ((discoverCount interval step n interval).1,
        (discoverCount interval step n interval).2 + 1)
    else discoverCount interval step n (c - step)

theorem discoverIter_spec (interval step : Int) :
    ∀ (n : Nat) (s : DiscoveryState),
      (discoverIter interval step n s).sourceId = s.sourceId ∧
      (discoverIter interval step n s).countdown =
        (discoverCount interval step n s.countdown).1 ∧
      (discoverIter interval step n s).sent =
        s.sent ++ List.replicate
          (discoverCount interval step n s.countdown).2
          (discoveryProbe s.sourceId) := by
  intro n
  induction n with
  | zero =>
    intro s
    exact ⟨rfl, rfl, by simp [discoverIter, discoverCount]⟩
  | succ n ih =>
    intro s
    have hred : discoverIter interval step (n + 1) s =
        discoverIter interval step n (discoverStep interval step s) := rfl
    by_cases hc : s.countdown ≤ 0
    · have hstep : discoverStep interval step s =
          { s with countdown := interval,
                   sent := s.sent ++ [discoveryProbe s.sourceId] } := by
        unfold discoverStep
        rw [if_pos hc]
      have hcnt : discoverCount interval step (n + 1) s.countdown =
          ((discoverCount interval step n interval).1,
            (discoverCount interval step n interval).2 + 1) := by
        show (if s.countdown ≤ 0 then _ else _) = _
        rw [if_pos hc]
      have h := ih (discoverStep interval step s)
      rw [hstep] at h
      refine ⟨by rw [hred, hstep]; exact h.1, ?_, ?_⟩
      · rw [hred, hstep, h.2.1, hcnt]
      · rw [hred, hstep, h.2.2, hcnt]
        simp [List.replicate_succ, List.append_assoc]
    · have hstep : discoverStep interval step s =
          { s with countdown := s.countdown - step } := by
        unfold discoverStep
        rw [if_neg hc]
      have hcnt : discoverCount interval step (n + 1) s.countdown =
          discoverCount interval step n (s.countdown - step) := by
        show (if s.countdown ≤ 0 then _ else _) = _
        rw [if_neg hc]
      have h := ih (discoverStep interval step s)
      rw [hstep] at h
      refine ⟨by rw [hred, hstep]; exact h.1, ?_, ?_⟩
      · rw [hred, hstep, h.2.1, hcnt]
      · rw [hred, hstep, h.2.2, hcnt]

theorem discoverCount_add (interval step : Int) (n m : Nat) :
    ∀ c, discoverCount interval step (n + m) c =
      ((discoverCount interval step n
          (discoverCount interval step m c).1).1,
        (discoverCount interval step m c).2 +
          (discoverCount interval step n
            (discoverCount interval step m c).1).2) := by
  induction m with
  | zero =>
    intro c
    simp [discoverCount]
  | succ m ih =>
    intro c
    have hred : n + (m + 1) = (n + m) + 1 := rfl
    rw [hred]
    by_cases hc : c ≤ 0
    · have h1 : discoverCount interval step ((n + m) + 1) c =
          ((discoverCount interval step (n + m) interval).1,
            (discoverCount interval step (n + m) interval).2 + 1) := by
        show (if c ≤ 0 then _ else _) = _
        rw [if_pos hc]
      have h2 : discoverCount interval step (m + 1) c =
          ((discoverCount interval step m interval).1,
            (discoverCount interval step m interval).2 + 1) := by
        show (if c ≤ 0 then _ else _) = _
        rw [if_pos hc]
      rw [h1, h2, ih interval]
      simp
      omega
    · have h1 : discoverCount interval step ((n + m) + 1) c =
          discoverCount interval step (n + m) (c - step) := by
        show (if c ≤ 0 then _ else _) = _
        rw [if_neg hc]
      have h2 : discoverCount interval step (m + 1) c =
          discoverCount interval step m (c - step) := by
        show (if c ≤ 0 then _ else _) = _
        rw [if_neg hc]
      rw [h1, h2, ih (c - step)]

theorem discoverCount_default_period :
    ∀ k : Nat, discoverCount 180 5 (37 * k) 0 = (0, k) := by
  intro k
  induction k with
  | zero => decide
  | succ k ih =>
    have h37 : discoverCount 180 5 37 0 = (0, 1) := by decide
    have hmul : 37 * (k + 1) = 37 + 37 * k := by ring
    rw [hmul, discoverCount_add 180 5 37 (37 * k) 0, ih]
    simp [h37]

/-- Counterexample for C7: the claim's schedule — one probe every
discovery_interval / discovery_step = 36 wakes — predicts 2 probes after
37 wakes (wake 1 and wake 37); the code has sent only 1 probe after 37
wakes, the second going out on wake 38. -/
theorem c7_discovery_counterexample :
    (discoverIter 180 5 37 (initDiscovery 0)).sent.length = 1 ∧
    (discoverIter 180 5 37 (initDiscovery 0)).sent.length ≠ 2 ∧
    (discoverIter 180 5 38 (initDiscovery 0)).sent.length = 2 := by
  refine ⟨by decide, by decide, by decide⟩

/-- C7 (amended): with countdown 0 and defaults (interval 180, step 5),
the first wake broadcasts a probe, and thereafter one probe is broadcast
exactly every discovery_interval / discovery_step + 1 = 37 wakes (185
seconds), because the probing wake resets the countdown to the full
interval and the wake that reaches 0 does not probe until the following
wake: after 37k wakes exactly k probes have been sent and wake 37k + 1
sends the (k+1)-th; each probe is a GetService with the broadcast
placeholder target, response requested and no ack. -/
theorem c7_discovery_probe_schedule (k sid : Nat) :
    (discoverIter 180 5 (37 * k) (initDiscovery sid)).sent =
      List.replicate k (discoveryProbe sid) ∧
    (discoverIter 180 5 (37 * k + 1) (initDiscovery sid)).sent =
      List.replicate (k + 1) (discoveryProbe sid) ∧
    (discoveryProbe sid).targetAddr = BROADCAST_MAC ∧
    (discoveryProbe sid).responseRequested = true ∧
    (discoveryProbe sid).ackRequested = false := by
  have hs := (discoverIter_spec 180 5 (37 * k) (initDiscovery sid)).2.2
  have hs1 := (discoverIter_spec 180 5 (37 * k + 1) (initDiscovery sid)).2.2
  have hcnt := discoverCount_default_period k
  have hone : discoverCount 180 5 1 0 = (180, 1) := by decide
  have hcnt1 : discoverCount 180 5 (37 * k + 1) 0 = (180, k + 1) := by
    have hadd : 37 * k + 1 = 1 + 37 * k := by ring
    rw [hadd, discoverCount_add 180 5 1 (37 * k) 0, hcnt]
    simp [hone]
  refine ⟨?_, ?_, rfl, rfl, rfl⟩
  · rw [hs]
    show [] ++ _ = _
    rw [List.nil_append]
    show List.replicate (discoverCount 180 5 (37 * k) 0).2 _ = _
    rw [hcnt]
    rfl
  · rw [hs1]
    show [] ++ _ = _
    rw [List.nil_append]
    show List.replicate (discoverCount 180 5 (37 * k + 1) 0).2 _ = _
    rw [hcnt1]
    rfl

/-- Outcome of applying the per-member operation to one light. -/
inductive CallOutcome where
  | ok
  | offline
  | failure
  deriving DecidableEq

/-- What the wrapper coroutine inside Lights.do_for_every_light produced
for one member: whether it re-raised anything, and whether a failure was
logged. -/
structure MemberResult where
  raised : Bool
  logged : Bool
  deriving DecidableEq

/-- The wrapper in Lights.do_for_every_light: a LightOffline failure is
logged at info level and swallowed; any other exception is logged with
traceback and swallowed; success passes through; nothing re-raises. -/
def lightWrapper : CallOutcome → MemberResult
  | .ok => { raised := false, logged := false }
  | .offline => { raised := false, logged := true }
  | .failure => { raised := false, logged := true }

/-- Lights.do_for_every_light: one wrapper per member, gathered; the
aggregate result lists every member with its wrapper result, in order,
and is available only once all wrappers have finished. -/
def doForEveryLight {α : Type} (lights : List α) (f : α → CallOutcome) :
    List (α × MemberResult) :=
  lights.map (fun l => (l, lightWrapper (f l)))

/-- C8: the fan-out applies the operation to every member in order; a
member failing with LightOffline or any other exception is logged and
swallowed, never re-raised, so the remaining members still run and the
aggregate call itself finishes normally with all members processed. -/
theorem c8_do_for_every_light {α : Type} (lights : List α)
    (f : α → CallOutcome) :
    (doForEveryLight lights f).map Prod.fst = lights ∧
    (doForEveryLight lights f).length = lights.length ∧
    (∀ pr ∈ doForEveryLight lights f, pr.2.raised = false) ∧
    (∀ pr ∈ doForEveryLight lights f,
      f pr.1 ≠ CallOutcome.ok → pr.2.logged = true) := by
  refine ⟨?_, ?_, ?_, ?_⟩
  · induction lights with
    | nil => rfl
    | cons a t ih => simpa [doForEveryLight] using ih
  · simp [doForEveryLight]
  · intro pr hpr
    simp only [doForEveryLight, List.mem_map] at hpr
    obtain ⟨l, _, rfl⟩ := hpr
    cases f l <;> rfl
  · intro pr hpr hne
    simp only [doForEveryLight, List.mem_map] at hpr
    obtain ⟨l, _, rfl⟩ := hpr
    revert hne
    cases f l <;> intro hne
    · exact absurd rfl hne
    · rfl
    · rfl

/-- Per-member operation for the C8 witness: the middle light of three
fails with LightOffline. -/
def c8SampleFun : String → CallOutcome :=
  fun l => if l = "y" then CallOutcome.offline else CallOutcome.ok

/-- Witness for C8: fan-out over three lights with one LightOffline
failure still reaches all three and raises nothing. -/
theorem c8_do_for_every_light_witness :
    (doForEveryLight ["x", "y", "z"] c8SampleFun).map Prod.fst =
      ["x", "y", "z"] ∧
    (("y", lightWrapper CallOutcome.offline) ∈
      doForEveryLight ["x", "y", "z"] c8SampleFun) ∧
    (lightWrapper CallOutcome.offline).raised = false :=
  ⟨(c8_do_for_every_light ["x", "y", "z"] c8SampleFun).1, by decide,
    by decide⟩

/-- The cached attributes of one member of a Lights collection that the
filter views read. -/
structure LightView where
  label : Option String
  group : Option String
  macAddr : String
  deriving DecidableEq

/-- Lights.get_by_label as written in the source: it compares each
member's cached GROUP, not its label, against the argument
(light.group == label). -/
def getByLabel (lights : List LightView) (lbl : String) : List LightView :=
  lights.filter (fun l => l.group == some lbl)

/-- Member used for the C9 failing input: label "kitchen", group
"upstairs". -/
def c9Light : LightView :=
  { label := some "kitchen", group := some "upstairs",
    macAddr := "d0:73:d5:00:00:05" }

/-- C9 (code bug): filtering a one-member collection by its own label
returns the empty collection, while filtering by the member's group name
returns the member — get_by_label filters on the group attribute,
contradicting its docstring. -/
theorem c9_get_by_label_bug :
    getByLabel [c9Light] "kitchen" = [] ∧
    c9Light.label = some "kitchen" ∧
    getByLabel [c9Light] "upstairs" = [c9Light] ∧
    c9Light.group = some "upstairs" :=
  ⟨by decide, by decide, by decide, by decide⟩

/-- Light.set_label: a value longer than 32 characters is silently
truncated to its first 32 characters before the SetLabel request is
built; after the acknowledged send the cache holds the sent value.
Returns (payload value sent, session after the successful ack). -/
def setLabelCall (s : Session) (value : List Char) : List Char × Session :=
  let v := if 32 < value.length then value.take 32 else value
  (v, { s with label := some v })

/-- C10: set_label sends and caches the first 32 characters of an
over-long value (which therefore differs from the caller's original
string), and sends and caches a value of at most 32 characters
unchanged. -/
theorem c10_set_label_truncates (s : Session) (value : List Char) :
    (32 < value.length →
      (setLabelCall s value).1 = value.take 32 ∧
      (setLabelCall s value).2.label = some (value.take 32) ∧
      (setLabelCall s value).1 ≠ value) ∧
    (value.length ≤ 32 →
      (setLabelCall s value).1 = value ∧
      (setLabelCall s value).2.label = some value) := by
  constructor
  · intro h
    refine ⟨by simp [setLabelCall, h], by simp [setLabelCall, h], ?_⟩
    simp only [setLabelCall, if_pos h]
    intro heq
    have hlen := congrArg List.length heq
    simp only [List.length_take] at hlen
    omega
  · intro h
    have hn : ¬ (32 < value.length) := by omega
    exact ⟨by simp [setLabelCall, hn], by simp [setLabelCall, hn]⟩

/-- Session used for the C10 witness. -/
def c10Session : Session :=
  { macAddr := "d0:73:d5:00:00:06", ipAddr := "192.168.0.6", port := 56700,
    transport := some 0, task := some 1, nextTaskId := 2, seq := 0,
    message := [], sourceId := 3, label := none, refreshes := 0 }

/-- Witness for C10 at a 33-character and a 5-character value. -/
theorem c10_set_label_truncates_witness :
    (setLabelCall c10Session (List.replicate 33 'a')).1 =
      (List.replicate 33 'a').take 32 ∧
    (setLabelCall c10Session (List.replicate 33 'a')).1 ≠
      List.replicate 33 'a' ∧
    (setLabelCall c10Session (List.replicate 5 'b')).1 =
      List.replicate 5 'b' := by
  have h1 := (c10_set_label_truncates c10Session (List.replicate 33 'a')).1
    (by decide)
  have h2 := (c10_set_label_truncates c10Session (List.replicate 5 'b')).2
    (by decide)
  exact ⟨h1.1, h1.2.2, h2.1⟩

end Aiolifx
